import Mathlib

/-!
Verification of `elasticModulusVisualization.py`.

The Python source is shallowly embedded below: NumPy float arrays become
rational-valued functions/lists (real arithmetic idealisation), the final
`normalize` projection onto the unit sphere is modelled over the reals,
and `np.linalg.inv` is modelled as the adjugate-based matrix inverse.
-/

namespace ElasticModulus

/-! ## Octahedron geometry (module-level arrays `node` and `octahedron`) -/

/-- The six octahedron vertices `node` (±x, ±y, ±z). -/
def node : Fin 6 → ℚ × ℚ × ℚ :=
  ![(1, 0, 0), (-1, 0, 0), (0, 1, 0), (0, -1, 0), (0, 0, 1), (0, 0, -1)]

/-- The eight octahedron faces, each a triple of `node` indices. -/
def octahedron : Fin 8 → Fin 3 → Fin 6 :=
  ![![0, 2, 4], ![2, 1, 4], ![1, 3, 4], ![3, 0, 4],
    ![0, 5, 2], ![2, 5, 1], ![1, 5, 3], ![3, 5, 0]]

/-! ## `Sierpinsky`: barycentric subdivision of one triangle

With `n = 2^N + 1`, the masked meshgrid `k[tril_n], l[tril_n]` enumerates
lattice pairs `(i, j)` with `j ≤ i ≤ n-1` in row-major order; each yields the
weight row `(n-1-i, i-j, j)/(n-1)`.  The linear index matrix is
`c[k,l] = l + cumsum(r)[k] = l + k(k+1)/2`.  The stacked/rolled/masked
connectivity keeps, for each band `k < n-1`, the positions `m ≤ 2k`:
even `m = 2l` is the up-triangle `(c[k,l], c[k+1,l], c[k+1,l+1])`, odd
`m = 2l+1` the down-triangle `(c[k,l], c[k+1,l+1], c[k,l+1])`, where the
`np.roll` wrap-around is written as `% n`. -/

/-- Weight rows of `Sierpinsky(N)`: `(n-1-i, i-j, j)/(n-1)` for `j ≤ i < n`. -/
def sierpinskyWeights (N : ℕ) : List (ℚ × ℚ × ℚ) :=
  let n : ℕ := 2 ^ N + 1
  (List.range n).flatMap (fun i =>
    (List.range (i + 1)).map (fun (j : ℕ) =>
      (((n : ℚ) - 1 - (i : ℚ)) / ((n : ℚ) - 1),
       ((i : ℚ) - (j : ℚ)) / ((n : ℚ) - 1),
       (j : ℚ) / ((n : ℚ) - 1))))

/-- The linear-index matrix `c[k,l] = l + k(k+1)/2` of `Sierpinsky`. -/
def cIdx (k l : ℕ) : ℕ := l + k * (k + 1) / 2

/-- Connectivity rows of `Sierpinsky(N)` (band-major, alternating
up/down unit cells, `np.roll` wrap written `% n`). -/
def sierpinskyConnectivity (N : ℕ) : List (ℕ × ℕ × ℕ) :=
  let n : ℕ := 2 ^ N + 1
  (List.range (n - 1)).flatMap (fun k =>
    (List.range (2 * k + 1)).map (fun m =>
      let l := m / 2
      if m % 2 = 0 then
        (cIdx k l, cIdx ((k + 1) % n) l, cIdx ((k + 1) % n) ((l + 1) % n))
      else
        (cIdx k l, cIdx ((k + 1) % n) ((l + 1) % n), cIdx k ((l + 1) % n))))

/-- `Sierpinsky(N)` returns the pair `(w, c)`. -/
def Sierpinsky (N : ℕ) : List (ℚ × ℚ × ℚ) × List (ℕ × ℕ × ℕ) :=
  (sierpinskyWeights N, sierpinskyConnectivity N)

/-! ## Full-sphere assembly (module-level code, lines 450-456)

`connectivity` offsets each face's triangles by `len(weights) * face`;
`nodes` maps each weight row over each face's three vertices and projects
the result onto the unit sphere. -/

/-- Global triangle list: each of the 8 faces' connectivity, offset by
`len(weights)` per face. -/
def sphereConnectivity (N : ℕ) : List (ℕ × ℕ × ℕ) :=
  (List.range 8).flatMap (fun f =>
    (sierpinskyConnectivity N).map (fun t =>
      ((sierpinskyWeights N).length * f + t.1,
       (sierpinskyWeights N).length * f + t.2.1,
       (sierpinskyWeights N).length * f + t.2.2)))

/-- Componentwise sum of 3-vectors. -/
def vadd3 (a b : ℚ × ℚ × ℚ) : ℚ × ℚ × ℚ := (a.1 + b.1, a.2.1 + b.2.1, a.2.2 + b.2.2)

/-- Scalar multiple of a 3-vector. -/
def smul3 (c : ℚ) (a : ℚ × ℚ × ℚ) : ℚ × ℚ × ℚ := (c * a.1, c * a.2.1, c * a.2.2)

/-- Unnormalised global node positions: `einsum('ik,...kj', weights,
node[octahedron])`, face-major then point-major. -/
def rawNodes (N : ℕ) : List (ℚ × ℚ × ℚ) :=
  (List.finRange 8).flatMap (fun f =>
    (sierpinskyWeights N).map (fun w =>
      vadd3 (vadd3 (smul3 w.1 (node (octahedron f 0)))
                   (smul3 w.2.1 (node (octahedron f 1))))
            (smul3 w.2.2 (node (octahedron f 2)))))

/-- `normalize`: divide a 3-vector by its Euclidean norm (real arithmetic). -/
noncomputable def normalizeV (v : ℝ × ℝ × ℝ) : ℝ × ℝ × ℝ :=
  let nrm := Real.sqrt (v.1 ^ 2 + v.2.1 ^ 2 + v.2.2 ^ 2)
  (v.1 / nrm, v.2.1 / nrm, v.2.2 / nrm)

/-- The assembled node positions `nodes` before modulus scaling:
every raw weighted-combination point projected onto the unit sphere. -/
noncomputable def sphereNodes (N : ℕ) : List (ℝ × ℝ × ℝ) :=
  (rawNodes N).map (fun p => normalizeV ((p.1 : ℝ), (p.2.1 : ℝ), (p.2.2 : ℝ)))

/-! ## Counting lemmas for the triangulation -/

theorem tri_succ (a : ℕ) : (a + 1) * (a + 2) / 2 = a * (a + 1) / 2 + (a + 1) := by
  rw [show (a + 1) * (a + 2) = a * (a + 1) + 2 * (a + 1) by ring]
  exact Nat.add_mul_div_left _ _ (by norm_num)

theorem sum_range_succ_mul_two (n : ℕ) :
    (((List.range n).map (fun i => i + 1)).sum) * 2 = n * (n + 1) := by
  induction n with
  | zero => rfl
  | succ n ih =>
      rw [List.range_succ, List.map_append, List.sum_append]
      simp only [List.map_cons, List.map_nil, List.sum_cons, List.sum_nil]
      rw [add_mul, ih]
      ring

theorem sum_range_odd (K : ℕ) :
    ((List.range K).map (fun k => 2 * k + 1)).sum = K * K := by
  induction K with
  | zero => rfl
  | succ K ih =>
      rw [List.range_succ, List.map_append, List.sum_append]
      simp only [List.map_cons, List.map_nil, List.sum_cons, List.sum_nil]
      rw [ih]
      ring

theorem sierpinskyWeights_length (N : ℕ) :
    (sierpinskyWeights N).length = (2 ^ N + 1) * (2 ^ N + 2) / 2 := by
  have h : (sierpinskyWeights N).length =
      (((List.range (2 ^ N + 1)).map (fun i => i + 1)).sum) := by
    simp [sierpinskyWeights, List.length_flatMap, Function.comp_def]
  rw [h]
  exact (Nat.div_eq_of_eq_mul_left (by norm_num)
    ((sum_range_succ_mul_two (2 ^ N + 1)).symm)).symm

theorem sierpinskyConnectivity_length (N : ℕ) :
    (sierpinskyConnectivity N).length = (2 ^ N) ^ 2 := by
  have h : (sierpinskyConnectivity N).length =
      ((List.range (2 ^ N + 1 - 1)).map (fun k => 2 * k + 1)).sum := by
    simp [sierpinskyConnectivity, List.length_flatMap, Function.comp_def]
  rw [h, Nat.add_sub_cancel, sum_range_odd, sq]

theorem rawNodes_length (N : ℕ) :
    (rawNodes N).length = 8 * (sierpinskyWeights N).length := by
  simp [rawNodes, List.length_flatMap, Function.comp_def, List.sum_replicate]
  omega

theorem sphereNodes_length (N : ℕ) :
    (sphereNodes N).length = 8 * (sierpinskyWeights N).length := by
  rw [sphereNodes, List.length_map, rawNodes_length]

theorem sphereConnectivity_length (N : ℕ) :
    (sphereConnectivity N).length = 8 * (sierpinskyConnectivity N).length := by
  simp [sphereConnectivity, List.length_flatMap, Function.comp_def, List.sum_replicate]
  omega

/-- C1: with `n = 2^N + 1`, `Sierpinsky N` returns `n(n+1)/2` weight triples
and `(2^N)^2` connectivity triangles per face, and the full-sphere assembly
has `8·n(n+1)/2` points and `8·(2^N)^2` triangles. -/
theorem C1_subdivision_counts (N : ℕ) :
    (Sierpinsky N).1.length = (2 ^ N + 1) * (2 ^ N + 2) / 2 ∧
    (Sierpinsky N).2.length = (2 ^ N) ^ 2 ∧
    (sphereNodes N).length = 8 * ((2 ^ N + 1) * (2 ^ N + 2) / 2) ∧
    (sphereConnectivity N).length = 8 * (2 ^ N) ^ 2 :=
  ⟨sierpinskyWeights_length N,
   sierpinskyConnectivity_length N,
   by rw [sphereNodes_length, sierpinskyWeights_length],
   by rw [sphereConnectivity_length, sierpinskyConnectivity_length]⟩

/-! ## Index bounds for the connectivity -/

theorem cIdx_lt {a b n : ℕ} (hba : b ≤ a) (han : a < n) :
    cIdx a b < n * (n + 1) / 2 := by
  have h1 : cIdx a b < (a + 1) * (a + 2) / 2 := by
    rw [tri_succ, cIdx]
    omega
  have h2 : (a + 1) * (a + 2) / 2 ≤ n * (n + 1) / 2 :=
    Nat.div_le_div_right (Nat.mul_le_mul han (by omega))
  omega

theorem sierpinskyConnectivity_bound (N : ℕ) (t : ℕ × ℕ × ℕ)
    (ht : t ∈ sierpinskyConnectivity N) :
    t.1 < (sierpinskyWeights N).length ∧
    t.2.1 < (sierpinskyWeights N).length ∧
    t.2.2 < (sierpinskyWeights N).length := by
  rw [sierpinskyWeights_length]
  set n : ℕ := 2 ^ N + 1 with hn
  have hn2 : 2 ≤ n := by
    have : 1 ≤ 2 ^ N := Nat.one_le_two_pow
    omega
  rw [sierpinskyConnectivity] at ht
  rcases List.mem_flatMap.mp ht with ⟨k, hk, hmem⟩
  rcases List.mem_map.mp hmem with ⟨m, hm, rfl⟩
  rw [List.mem_range] at hk hm
  have hkn : k + 1 < n := by omega
  have hmod : (k + 1) % n = k + 1 := Nat.mod_eq_of_lt hkn
  have hl : m / 2 ≤ k := by omega
  have hln : (m / 2 + 1) % n = m / 2 + 1 := Nat.mod_eq_of_lt (by omega)
  show (2 ^ N + 1) * (2 ^ N + 2) / 2 > _ ∧ _
  by_cases hpar : m % 2 = 0
  · simp only [hpar, if_pos, if_true, hmod, hln]
    refine ⟨cIdx_lt hl (by omega), cIdx_lt (by omega) hkn, cIdx_lt (by omega) hkn⟩
  · have hlk : m / 2 + 1 ≤ k := by omega
    simp only [if_neg hpar, hmod, hln]
    exact ⟨cIdx_lt hl (by omega), cIdx_lt (by omega) hkn, cIdx_lt (by omega) (by omega)⟩

/-- C9: every triangle of the assembled global connectivity references valid
node indices: all three indices are below the total point count
`8·(2^N+1)(2^N+2)/2`. -/
theorem C9_connectivity_valid (N : ℕ) (t : ℕ × ℕ × ℕ)
    (ht : t ∈ sphereConnectivity N) :
    t.1 < 8 * ((2 ^ N + 1) * (2 ^ N + 2) / 2) ∧
    t.2.1 < 8 * ((2 ^ N + 1) * (2 ^ N + 2) / 2) ∧
    t.2.2 < 8 * ((2 ^ N + 1) * (2 ^ N + 2) / 2) := by
  rcases List.mem_flatMap.mp ht with ⟨f, hf, hmem⟩
  rcases List.mem_map.mp hmem with ⟨s, hs, rfl⟩
  rw [List.mem_range] at hf
  have hb := sierpinskyConnectivity_bound N s hs
  set P : ℕ := (sierpinskyWeights N).length with hP
  have hPval : P = (2 ^ N + 1) * (2 ^ N + 2) / 2 := sierpinskyWeights_length N
  have key : ∀ a : ℕ, a < P → P * f + a < 8 * ((2 ^ N + 1) * (2 ^ N + 2) / 2) := by
    intro a ha
    calc P * f + a < P * f + P := by omega
    _ = P * (f + 1) := by ring
    _ ≤ P * 8 := Nat.mul_le_mul_left P (by omega)
    _ = 8 * ((2 ^ N + 1) * (2 ^ N + 2) / 2) := by rw [hPval]; ring
  exact ⟨key _ hb.1, key _ hb.2.1, key _ hb.2.2⟩

/-- C9 witness: the concrete triangle `(0,1,2)` of the level-0 assembly is
in bounds. -/
theorem C9_connectivity_valid_witness :
    (0, 1, 2) ∈ sphereConnectivity 0 ∧
    (0 : ℕ) < 8 * ((2 ^ 0 + 1) * (2 ^ 0 + 2) / 2) ∧
    (1 : ℕ) < 8 * ((2 ^ 0 + 1) * (2 ^ 0 + 2) / 2) ∧
    (2 : ℕ) < 8 * ((2 ^ 0 + 1) * (2 ^ 0 + 2) / 2) :=
  ⟨by decide, C9_connectivity_valid 0 (0, 1, 2) (by decide)⟩

/-! ## Duplicate coincident nodes across face boundaries -/

/-- C8 counterexample: at subdivision level 0, the distinct node indices 0
(face 0, corner 0) and 10 (face 3, corner 1) hold the same 3D position
`(1,0,0)`: shared-edge/corner points are NOT deduplicated across faces. -/
theorem C8_counterexample :
    (0 : ℕ) ≠ 10 ∧
    (sphereNodes 0)[0]? = (sphereNodes 0)[10]? ∧
    ((sphereNodes 0)[0]?).isSome = true := by
  have hfin : List.finRange 8 = [0, 1, 2, 3, 4, 5, 6, 7] := by decide
  have hW : sierpinskyWeights 0 = [((1 : ℚ), 0, 0), (0, 1, 0), (0, 0, 1)] := by
    norm_num [sierpinskyWeights, List.range_succ]
  have h0 : (rawNodes 0)[(0 : ℕ)]? = some (1, 0, 0) := by
    norm_num [rawNodes, hfin, hW, vadd3, smul3, node, octahedron]
  have h10 : (rawNodes 0)[(10 : ℕ)]? = some (1, 0, 0) := by
    norm_num [rawNodes, hfin, hW, vadd3, smul3, node, octahedron]
  refine ⟨by decide, ?_, ?_⟩
  · rw [sphereNodes, List.getElem?_map, List.getElem?_map, h0, h10]
  · rw [sphereNodes, List.getElem?_map, h0]
    rfl

/-- The enumerated barycentric lattice pairs `(i, j)` with `j ≤ i < n`. -/
def latticePairs (n : ℕ) : List (ℕ × ℕ) :=
  (List.range n).flatMap (fun i => (List.range (i + 1)).map (fun j => (i, j)))

theorem latticePairs_nodup (n : ℕ) : (latticePairs n).Nodup := by
  rw [latticePairs, List.nodup_flatMap]
  constructor
  · intro i _
    exact List.Nodup.map (fun a b h => congrArg Prod.snd h) (List.nodup_range (i + 1))
  · refine (List.pairwise_lt_range n).imp ?_
    intro a b hab x hxa hxb
    rcases List.mem_map.mp hxa with ⟨j, _, rfl⟩
    rcases List.mem_map.mp hxb with ⟨j', _, hj⟩
    exact absurd (congrArg Prod.fst hj).symm (Nat.ne_of_lt hab)

theorem sierpinskyWeights_eq_map (N : ℕ) :
    sierpinskyWeights N = (latticePairs (2 ^ N + 1)).map (fun p =>
      (((2 ^ N + 1 : ℕ) - 1 - (p.1 : ℚ)) / ((2 ^ N + 1 : ℕ) - 1),
       ((p.1 : ℚ) - (p.2 : ℚ)) / ((2 ^ N + 1 : ℕ) - 1),
       (p.2 : ℚ) / ((2 ^ N + 1 : ℕ) - 1))) := by
  rw [sierpinskyWeights, latticePairs, List.map_flatMap]
  refine List.flatMap_congr ?_
  intro i _
  rw [List.map_map]
  rfl

/-- C8 amended: per-face deduplication does hold — the barycentric weight
triples of a single face are pairwise distinct — while coincident points on
shared octahedron edges are emitted once per adjacent face. -/
theorem C8_amended_face_nodup (N : ℕ) : (sierpinskyWeights N).Nodup := by
  rw [sierpinskyWeights_eq_map]
  refine List.Nodup.map ?_ (latticePairs_nodup _)
  intro p q h
  have hden : ((2 ^ N + 1 : ℕ) : ℚ) - 1 ≠ 0 := by
    have he : ((2 ^ N + 1 : ℕ) : ℚ) - 1 = (2 : ℚ) ^ N := by push_cast; ring
    rw [he]
    positivity
  have h2 : (p.2 : ℚ) = (q.2 : ℚ) := by
    have hc := congrArg (fun t : ℚ × ℚ × ℚ => t.2.2 * (((2 ^ N + 1 : ℕ) : ℚ) - 1)) h
    simpa [div_mul_cancel₀, hden] using hc
  have h1 : (p.1 : ℚ) - (p.2 : ℚ) = (q.1 : ℚ) - (q.2 : ℚ) := by
    have hc := congrArg (fun t : ℚ × ℚ × ℚ => t.2.1 * (((2 ^ N + 1 : ℕ) : ℚ) - 1)) h
    simpa [div_mul_cancel₀, hden] using hc
  have hp2 : p.2 = q.2 := Nat.cast_injective h2
  have hp1 : p.1 = q.1 := by
    have hcast : (p.1 : ℚ) = (q.1 : ℚ) := by linarith
    exact Nat.cast_injective hcast
  exact Prod.ext hp1 hp2

/-! ## `C66fromSymmetry`: symmetry-constrained stiffness matrix

The Python function builds a 6×6 zero matrix and runs a cascade of guarded
entry assignments, one `if symmetry in [...]` block per symmetry family.
Each Python statement `C[a,b] = ... = v` becomes a chain of `mset` updates
sharing one value; the Python truthiness guard `c and c > 0.0` becomes
`c ≠ 0 ∧ c > 0`, and the bare guard `c44 > 0.0` stays `c44 > 0`. -/

/-- 6×6 rational matrices. -/
abbrev Mat6 := Matrix (Fin 6) (Fin 6) ℚ

/-- Single entry assignment `M[i,j] = x`. -/
def mset (M : Mat6) (i j : Fin 6) (x : ℚ) : Mat6 :=
  fun p q => if p = i ∧ q = j then x else M p q

/-- Python `symmetry in [...]` membership test on an optional string. -/
def symIn (symmetry : Option String) (classes : List String) : Bool :=
  match symmetry with
  | none => false
  | some s => classes.contains s

/-- The symmetry-constrained 6×6 stiffness matrix (`C66fromSymmetry`). -/
def C66fromSymmetry
    (c11 c12 c13 c14 c15 c16 c22 c23 c24 c25 c26 c33 c34 c35 c36 c44 c45 c46
     c55 c56 c66 : ℚ) (symmetry : Option String) : Mat6 :=
  let C : Mat6 := fun _ _ => 0
  let C :=
    if symIn symmetry ["isotropic", "cubic", "tetragonal", "hexagonal",
        "orthorhombic", "monoclinic", "triclinic"] then
      let C := mset (mset (mset C 0 0 c11) 1 1 c11) 2 2 c11
      let v := 0.5 * (c11 - c12)
      let C := mset (mset (mset C 3 3 v) 4 4 v) 5 5 v
      let C := mset (mset (mset (mset (mset (mset C 0 1 c12) 0 2 c12) 1 2 c12)
        1 0 c12) 2 0 c12) 2 1 c12
      C
    else C
  let C :=
    if symIn symmetry ["cubic", "tetragonal", "hexagonal", "orthorhombic",
        "monoclinic", "triclinic"] then
      let v := if c44 > 0 then c44 else C 3 3
      mset (mset (mset C 3 3 v) 4 4 v) 5 5 v
    else C
  let C :=
    if symIn symmetry ["tetragonal", "hexagonal", "orthorhombic", "monoclinic",
        "triclinic"] then
      let C := mset C 2 2 (if c33 ≠ 0 ∧ c33 > 0 then c33 else C 0 0)
      let C := mset C 5 5 (if c66 ≠ 0 ∧ c66 > 0 then c66 else C 3 3)
      let v := if c13 ≠ 0 ∧ c13 > 0 then c13 else C 0 2
      let C := mset (mset (mset (mset C 0 2 v) 1 2 v) 2 0 v) 2 1 v
      let C := mset C 0 5 (if c16 ≠ 0 ∧ c16 > 0 then c16 else 0)
      let C := mset C 5 0 (if c16 ≠ 0 ∧ c16 > 0 then -c16 else 0)
      C
    else C
  let C :=
    if symIn symmetry ["hexagonal", "orthorhombic", "monoclinic", "triclinic"] then
      mset C 5 5 (0.5 * (c11 - c12))
    else C
  let C :=
    if symIn symmetry ["orthorhombic", "monoclinic", "triclinic"] then
      let C := mset C 1 1 (if c22 ≠ 0 ∧ c22 > 0 then c22 else C 0 0)
      let C := mset C 2 2 (if c33 ≠ 0 ∧ c33 > 0 then c33 else C 0 0)
      let C := mset C 4 4 (if c55 ≠ 0 ∧ c55 > 0 then c55 else C 3 3)
      let C := mset C 5 5 (if c66 ≠ 0 ∧ c66 > 0 then c66 else C 3 3)
      let v := if c23 ≠ 0 ∧ c23 > 0 then c23 else C 1 2
      let C := mset (mset C 1 2 v) 2 1 v
      C
    else C
  let C :=
    if symIn symmetry ["monoclinic", "triclinic"] then
      let v1 := if c26 ≠ 0 ∧ c26 > 0 then c26 else 0
      let C := mset (mset C 1 5 v1) 5 1 v1
      let v2 := if c36 ≠ 0 ∧ c36 > 0 then c36 else 0
      let C := mset (mset C 2 5 v2) 5 2 v2
      let v3 := if c45 ≠ 0 ∧ c45 > 0 then c45 else 0
      let C := mset (mset C 3 4 v3) 4 3 v3
      C
    else C
  let C :=
    if symIn symmetry ["triclinic"] then
      let v1 := if c14 ≠ 0 ∧ c14 > 0 then c14 else 0
      let C := mset (mset C 0 3 v1) 3 0 v1
      let v2 := if c15 ≠ 0 ∧ c15 > 0 then c15 else 0
      let C := mset (mset C 0 4 v2) 4 0 v2
      let v3 := if c24 ≠ 0 ∧ c24 > 0 then c24 else 0
      let C := mset (mset C 1 3 v3) 3 1 v3
      let v4 := if c25 ≠ 0 ∧ c25 > 0 then c25 else 0
      let C := mset (mset C 1 4 v4) 4 1 v4
      let v5 := if c34 ≠ 0 ∧ c34 > 0 then c34 else 0
      let C := mset (mset C 2 3 v5) 3 2 v5
      let v6 := if c35 ≠ 0 ∧ c35 > 0 then c35 else 0
      let C := mset (mset C 2 4 v6) 4 2 v6
      let v7 := if c36 ≠ 0 ∧ c36 > 0 then c36 else 0
      let C := mset (mset C 2 5 v7) 5 2 v7
      let v8 := if c46 ≠ 0 ∧ c46 > 0 then c46 else 0
      let C := mset (mset C 3 5 v8) 5 3 v8
      let v9 := if c56 ≠ 0 ∧ c56 > 0 then c56 else 0
      let C := mset (mset C 4 5 v9) 5 4 v9
      C
    else C
  C

/-! ## Closed forms and symmetry facts for the built matrix -/

/-- Matrix shape of an isotropic Voigt stiffness/compliance: `p` on the
normal diagonal, `q` off-diagonal in the upper 3×3 block, `r` on the shear
diagonal. -/
def isoM (p q r : ℚ) : Mat6 := fun i j =>
  if i = j then (if i = 3 ∨ i = 4 ∨ i = 5 then r else p)
  else if (i = 0 ∨ i = 1 ∨ i = 2) ∧ (j = 0 ∨ j = 1 ∨ j = 2) then q else 0

theorem C66fromSymmetry_isotropic
    (c11 c12 c13 c14 c15 c16 c22 c23 c24 c25 c26 c33 c34 c35 c36 c44 c45 c46
     c55 c56 c66 : ℚ) :
    C66fromSymmetry c11 c12 c13 c14 c15 c16 c22 c23 c24 c25 c26 c33 c34 c35 c36
      c44 c45 c46 c55 c56 c66 (some "isotropic") =
    isoM c11 c12 (0.5 * (c11 - c12)) := by
  ext i j
  fin_cases i <;> fin_cases j <;> rfl

/-- C7: for symmetry isotropic (any constants), the built matrix is exactly
`C[0,0]=C[1,1]=C[2,2]=c11`, `C[0,1]=C[0,2]=C[1,2]=C[1,0]=C[2,0]=C[2,1]=c12`,
`C[3,3]=C[4,4]=C[5,5]=0.5(c11−c12)`, and every other entry 0. -/
theorem C7_isotropic_entries
    (c11 c12 c13 c14 c15 c16 c22 c23 c24 c25 c26 c33 c34 c35 c36 c44 c45 c46
     c55 c56 c66 : ℚ) :
    C66fromSymmetry c11 c12 c13 c14 c15 c16 c22 c23 c24 c25 c26 c33 c34 c35 c36
      c44 c45 c46 c55 c56 c66 (some "isotropic") =
    Matrix.of ![![c11, c12, c12, 0, 0, 0],
                ![c12, c11, c12, 0, 0, 0],
                ![c12, c12, c11, 0, 0, 0],
                ![0, 0, 0, 0.5 * (c11 - c12), 0, 0],
                ![0, 0, 0, 0, 0.5 * (c11 - c12), 0],
                ![0, 0, 0, 0, 0, 0.5 * (c11 - c12)]] := by
  rw [C66fromSymmetry_isotropic c11 c12 c13 c14 c15 c16 c22 c23 c24 c25 c26 c33
    c34 c35 c36 c44 c45 c46 c55 c56 c66]
  ext i j
  fin_cases i <;> fin_cases j <;> rfl

/-- C5: for every recognized symmetry class and any constants, the built
matrix is symmetric at every index pair except (0,5)/(5,0); that pair, in
tetragonal-and-above classes with `c16 > 0`, satisfies `M[5,0] = −M[0,5]`. -/
theorem C5_symmetric_except_C16
    (c11 c12 c13 c14 c15 c16 c22 c23 c24 c25 c26 c33 c34 c35 c36 c44 c45 c46
     c55 c56 c66 : ℚ) (symmetry : Option String)
    (hsym : symIn symmetry ["isotropic", "cubic", "tetragonal", "hexagonal",
      "orthorhombic", "monoclinic", "triclinic"] = true) :
    (∀ i j : Fin 6, ¬(i = 0 ∧ j = 5) → ¬(i = 5 ∧ j = 0) →
      C66fromSymmetry c11 c12 c13 c14 c15 c16 c22 c23 c24 c25 c26 c33 c34 c35
        c36 c44 c45 c46 c55 c56 c66 symmetry i j =
      C66fromSymmetry c11 c12 c13 c14 c15 c16 c22 c23 c24 c25 c26 c33 c34 c35
        c36 c44 c45 c46 c55 c56 c66 symmetry j i) ∧
    (symIn symmetry ["tetragonal", "hexagonal", "orthorhombic", "monoclinic",
      "triclinic"] = true → c16 > 0 →
      C66fromSymmetry c11 c12 c13 c14 c15 c16 c22 c23 c24 c25 c26 c33 c34 c35
        c36 c44 c45 c46 c55 c56 c66 symmetry 5 0 =
      - C66fromSymmetry c11 c12 c13 c14 c15 c16 c22 c23 c24 c25 c26 c33 c34 c35
        c36 c44 c45 c46 c55 c56 c66 symmetry 0 5) := by
  match symmetry with
  | none => simp [symIn] at hsym
  | some s =>
  simp only [symIn] at hsym
  simp at hsym
  rcases hsym with rfl | rfl | rfl | rfl | rfl | rfl | rfl <;>
    refine ⟨?_, ?_⟩ <;>
    first
      | (intro i j h05 h50
         fin_cases i <;> fin_cases j <;>
           first
             | rfl
             | exact absurd (by decide) h05
             | exact absurd (by decide) h50)
      | (intro htet hpos
         first
           | exact absurd htet (by decide)
           | (have hc : c16 ≠ 0 ∧ c16 > 0 := ⟨ne_of_gt hpos, hpos⟩
              show (if c16 ≠ 0 ∧ c16 > 0 then -c16 else 0) =
                -(if c16 ≠ 0 ∧ c16 > 0 then c16 else 0)
              rw [if_pos hc, if_pos hc]))

/-- C5 witness: the tetragonal instance with `c11=3, c12=1, c16=2`. -/
theorem C5_symmetric_except_C16_witness :
    (∀ i j : Fin 6, ¬(i = 0 ∧ j = 5) → ¬(i = 5 ∧ j = 0) →
      C66fromSymmetry 3 1 0 0 0 2 0 0 0 0 0 0 0 0 0 0 0 0 0 0 0
        (some "tetragonal") i j =
      C66fromSymmetry 3 1 0 0 0 2 0 0 0 0 0 0 0 0 0 0 0 0 0 0 0
        (some "tetragonal") j i) ∧
    (symIn (some "tetragonal") ["tetragonal", "hexagonal", "orthorhombic",
      "monoclinic", "triclinic"] = true → (2 : ℚ) > 0 →
      C66fromSymmetry 3 1 0 0 0 2 0 0 0 0 0 0 0 0 0 0 0 0 0 0 0
        (some "tetragonal") 5 0 =
      - C66fromSymmetry 3 1 0 0 0 2 0 0 0 0 0 0 0 0 0 0 0 0 0 0 0
        (some "tetragonal") 0 5) :=
  C5_symmetric_except_C16 3 1 0 0 0 2 0 0 0 0 0 0 0 0 0 0 0 0 0 0 0
    (some "tetragonal") (by rfl)

/-- C10: an unrecognized symmetry argument (None or any string outside the
seven recognized class names) raises nothing and yields the all-zero 6×6
matrix, whatever the constants. -/
theorem C10_unrecognized_symmetry_zero
    (c11 c12 c13 c14 c15 c16 c22 c23 c24 c25 c26 c33 c34 c35 c36 c44 c45 c46
     c55 c56 c66 : ℚ) (symmetry : Option String)
    (hsym : symIn symmetry ["isotropic", "cubic", "tetragonal", "hexagonal",
      "orthorhombic", "monoclinic", "triclinic"] = false) :
    C66fromSymmetry c11 c12 c13 c14 c15 c16 c22 c23 c24 c25 c26 c33 c34 c35 c36
      c44 c45 c46 c55 c56 c66 symmetry = 0 := by
  cases symmetry with
  | none =>
      ext i j
      simp [C66fromSymmetry, symIn]
  | some s =>
      have hmem : s ≠ "isotropic" ∧ s ≠ "cubic" ∧ s ≠ "tetragonal" ∧
          s ≠ "hexagonal" ∧ s ≠ "orthorhombic" ∧ s ≠ "monoclinic" ∧
          s ≠ "triclinic" := by
        simp only [symIn] at hsym
        simp only [List.elem_eq_mem, List.mem_cons, List.mem_singleton,
          Bool.decide_or, Bool.or_eq_false_iff, decide_eq_false_iff_not] at hsym
        tauto
      obtain ⟨h1, h2, h3, h4, h5, h6, h7⟩ := hmem
      ext i j
      simp [C66fromSymmetry, symIn, h1, h2, h3, h4, h5, h6, h7]

/-- C10 witness: symmetry `none` (Python `None`) gives the zero matrix. -/
theorem C10_unrecognized_symmetry_zero_witness :
    C66fromSymmetry 1 2 3 4 5 6 7 8 9 10 11 12 13 14 15 16 17 18 19 20 21
      none = 0 :=
  C10_unrecognized_symmetry_zero 1 2 3 4 5 6 7 8 9 10 11 12 13 14 15 16 17 18
    19 20 21 none (by rfl)

/-! ## Defaulting predicate: nonpositive constants are ignored -/

theorem guard_nonpos {v : ℚ} (h : v ≤ 0) (x y : ℚ) :
    (if v ≠ 0 ∧ v > 0 then x else y) = y := by
  rw [if_neg]
  rintro ⟨-, hv⟩
  exact absurd hv (not_lt.mpr h)

theorem gt_guard_nonpos {v : ℚ} (h : v ≤ 0) (x y : ℚ) :
    (if v > 0 then x else y) = y :=
  if_neg (not_lt.mpr h)

theorem guard_zero (x y : ℚ) :
    (if (0 : ℚ) ≠ 0 ∧ (0 : ℚ) > 0 then x else y) = y := by
  norm_num

theorem gt_guard_zero (x y : ℚ) : (if (0 : ℚ) > 0 then x else y) = y := by
  norm_num

/-- C6: every slot governed by the defaulting predicate ignores a supplied
constant that is zero or strictly negative (the run equals the run with that
slot defaulted to 0); in particular cubic with `c44 ≤ 0` keeps
`C[3,3] = C[4,4] = C[5,5] = 0.5(c11−c12)`. -/
theorem C6_nonpositive_constants_ignored
    (c11 c12 c13 c14 c15 c16 c22 c23 c24 c25 c26 c33 c34 c35 c36 c44 c45 c46
     c55 c56 c66 : ℚ) (symmetry : Option String) :
    (∀ v : ℚ, v ≤ 0 →
      C66fromSymmetry c11 c12 v c14 c15 c16 c22 c23 c24 c25 c26 c33 c34 c35 c36 c44 c45 c46 c55 c56 c66
        symmetry =
      C66fromSymmetry c11 c12 0 c14 c15 c16 c22 c23 c24 c25 c26 c33 c34 c35 c36 c44 c45 c46 c55 c56 c66
        symmetry) ∧
    (∀ v : ℚ, v ≤ 0 →
      C66fromSymmetry c11 c12 c13 v c15 c16 c22 c23 c24 c25 c26 c33 c34 c35 c36 c44 c45 c46 c55 c56 c66
        symmetry =
      C66fromSymmetry c11 c12 c13 0 c15 c16 c22 c23 c24 c25 c26 c33 c34 c35 c36 c44 c45 c46 c55 c56 c66
        symmetry) ∧
    (∀ v : ℚ, v ≤ 0 →
      C66fromSymmetry c11 c12 c13 c14 v c16 c22 c23 c24 c25 c26 c33 c34 c35 c36 c44 c45 c46 c55 c56 c66
        symmetry =
      C66fromSymmetry c11 c12 c13 c14 0 c16 c22 c23 c24 c25 c26 c33 c34 c35 c36 c44 c45 c46 c55 c56 c66
        symmetry) ∧
    (∀ v : ℚ, v ≤ 0 →
      C66fromSymmetry c11 c12 c13 c14 c15 v c22 c23 c24 c25 c26 c33 c34 c35 c36 c44 c45 c46 c55 c56 c66
        symmetry =
      C66fromSymmetry c11 c12 c13 c14 c15 0 c22 c23 c24 c25 c26 c33 c34 c35 c36 c44 c45 c46 c55 c56 c66
        symmetry) ∧
    (∀ v : ℚ, v ≤ 0 →
      C66fromSymmetry c11 c12 c13 c14 c15 c16 v c23 c24 c25 c26 c33 c34 c35 c36 c44 c45 c46 c55 c56 c66
        symmetry =
      C66fromSymmetry c11 c12 c13 c14 c15 c16 0 c23 c24 c25 c26 c33 c34 c35 c36 c44 c45 c46 c55 c56 c66
        symmetry) ∧
    (∀ v : ℚ, v ≤ 0 →
      C66fromSymmetry c11 c12 c13 c14 c15 c16 c22 v c24 c25 c26 c33 c34 c35 c36 c44 c45 c46 c55 c56 c66
        symmetry =
      C66fromSymmetry c11 c12 c13 c14 c15 c16 c22 0 c24 c25 c26 c33 c34 c35 c36 c44 c45 c46 c55 c56 c66
        symmetry) ∧
    (∀ v : ℚ, v ≤ 0 →
      C66fromSymmetry c11 c12 c13 c14 c15 c16 c22 c23 v c25 c26 c33 c34 c35 c36 c44 c45 c46 c55 c56 c66
        symmetry =
      C66fromSymmetry c11 c12 c13 c14 c15 c16 c22 c23 0 c25 c26 c33 c34 c35 c36 c44 c45 c46 c55 c56 c66
        symmetry) ∧
    (∀ v : ℚ, v ≤ 0 →
      C66fromSymmetry c11 c12 c13 c14 c15 c16 c22 c23 c24 v c26 c33 c34 c35 c36 c44 c45 c46 c55 c56 c66
        symmetry =
      C66fromSymmetry c11 c12 c13 c14 c15 c16 c22 c23 c24 0 c26 c33 c34 c35 c36 c44 c45 c46 c55 c56 c66
        symmetry) ∧
    (∀ v : ℚ, v ≤ 0 →
      C66fromSymmetry c11 c12 c13 c14 c15 c16 c22 c23 c24 c25 v c33 c34 c35 c36 c44 c45 c46 c55 c56 c66
        symmetry =
      C66fromSymmetry c11 c12 c13 c14 c15 c16 c22 c23 c24 c25 0 c33 c34 c35 c36 c44 c45 c46 c55 c56 c66
        symmetry) ∧
    (∀ v : ℚ, v ≤ 0 →
      C66fromSymmetry c11 c12 c13 c14 c15 c16 c22 c23 c24 c25 c26 v c34 c35 c36 c44 c45 c46 c55 c56 c66
        symmetry =
      C66fromSymmetry c11 c12 c13 c14 c15 c16 c22 c23 c24 c25 c26 0 c34 c35 c36 c44 c45 c46 c55 c56 c66
        symmetry) ∧
    (∀ v : ℚ, v ≤ 0 →
      C66fromSymmetry c11 c12 c13 c14 c15 c16 c22 c23 c24 c25 c26 c33 v c35 c36 c44 c45 c46 c55 c56 c66
        symmetry =
      C66fromSymmetry c11 c12 c13 c14 c15 c16 c22 c23 c24 c25 c26 c33 0 c35 c36 c44 c45 c46 c55 c56 c66
        symmetry) ∧
    (∀ v : ℚ, v ≤ 0 →
      C66fromSymmetry c11 c12 c13 c14 c15 c16 c22 c23 c24 c25 c26 c33 c34 v c36 c44 c45 c46 c55 c56 c66
        symmetry =
      C66fromSymmetry c11 c12 c13 c14 c15 c16 c22 c23 c24 c25 c26 c33 c34 0 c36 c44 c45 c46 c55 c56 c66
        symmetry) ∧
    (∀ v : ℚ, v ≤ 0 →
      C66fromSymmetry c11 c12 c13 c14 c15 c16 c22 c23 c24 c25 c26 c33 c34 c35 v c44 c45 c46 c55 c56 c66
        symmetry =
      C66fromSymmetry c11 c12 c13 c14 c15 c16 c22 c23 c24 c25 c26 c33 c34 c35 0 c44 c45 c46 c55 c56 c66
        symmetry) ∧
    (∀ v : ℚ, v ≤ 0 →
      C66fromSymmetry c11 c12 c13 c14 c15 c16 c22 c23 c24 c25 c26 c33 c34 c35 c36 v c45 c46 c55 c56 c66
        symmetry =
      C66fromSymmetry c11 c12 c13 c14 c15 c16 c22 c23 c24 c25 c26 c33 c34 c35 c36 0 c45 c46 c55 c56 c66
        symmetry) ∧
    (∀ v : ℚ, v ≤ 0 →
      C66fromSymmetry c11 c12 c13 c14 c15 c16 c22 c23 c24 c25 c26 c33 c34 c35 c36 c44 v c46 c55 c56 c66
        symmetry =
      C66fromSymmetry c11 c12 c13 c14 c15 c16 c22 c23 c24 c25 c26 c33 c34 c35 c36 c44 0 c46 c55 c56 c66
        symmetry) ∧
    (∀ v : ℚ, v ≤ 0 →
      C66fromSymmetry c11 c12 c13 c14 c15 c16 c22 c23 c24 c25 c26 c33 c34 c35 c36 c44 c45 v c55 c56 c66
        symmetry =
      C66fromSymmetry c11 c12 c13 c14 c15 c16 c22 c23 c24 c25 c26 c33 c34 c35 c36 c44 c45 0 c55 c56 c66
        symmetry) ∧
    (∀ v : ℚ, v ≤ 0 →
      C66fromSymmetry c11 c12 c13 c14 c15 c16 c22 c23 c24 c25 c26 c33 c34 c35 c36 c44 c45 c46 v c56 c66
        symmetry =
      C66fromSymmetry c11 c12 c13 c14 c15 c16 c22 c23 c24 c25 c26 c33 c34 c35 c36 c44 c45 c46 0 c56 c66
        symmetry) ∧
    (∀ v : ℚ, v ≤ 0 →
      C66fromSymmetry c11 c12 c13 c14 c15 c16 c22 c23 c24 c25 c26 c33 c34 c35 c36 c44 c45 c46 c55 v c66
        symmetry =
      C66fromSymmetry c11 c12 c13 c14 c15 c16 c22 c23 c24 c25 c26 c33 c34 c35 c36 c44 c45 c46 c55 0 c66
        symmetry) ∧
    (∀ v : ℚ, v ≤ 0 →
      C66fromSymmetry c11 c12 c13 c14 c15 c16 c22 c23 c24 c25 c26 c33 c34 c35 c36 c44 c45 c46 c55 c56 v
        symmetry =
      C66fromSymmetry c11 c12 c13 c14 c15 c16 c22 c23 c24 c25 c26 c33 c34 c35 c36 c44 c45 c46 c55 c56 0
        symmetry) ∧
    (c44 ≤ 0 →
      C66fromSymmetry c11 c12 c13 c14 c15 c16 c22 c23 c24 c25 c26 c33 c34 c35 c36 c44 c45 c46 c55 c56 c66
        (some "cubic") 3 3 = 0.5 * (c11 - c12) ∧
      C66fromSymmetry c11 c12 c13 c14 c15 c16 c22 c23 c24 c25 c26 c33 c34 c35 c36 c44 c45 c46 c55 c56 c66
        (some "cubic") 4 4 = 0.5 * (c11 - c12) ∧
      C66fromSymmetry c11 c12 c13 c14 c15 c16 c22 c23 c24 c25 c26 c33 c34 c35 c36 c44 c45 c46 c55 c56 c66
        (some "cubic") 5 5 = 0.5 * (c11 - c12)) := by
  refine ⟨?_, ?_, ?_, ?_, ?_, ?_, ?_, ?_, ?_, ?_, ?_, ?_, ?_, ?_, ?_, ?_, ?_, ?_, ?_, ?_⟩ <;>
    first
      | (intro v hv
         simp only [C66fromSymmetry, guard_nonpos hv, gt_guard_nonpos hv,
           guard_zero, gt_guard_zero])
      | (intro h44
         refine ⟨?_, ?_, ?_⟩ <;>
           · show (if c44 > 0 then c44 else 0.5 * (c11 - c12)) =
               0.5 * (c11 - c12)
             exact gt_guard_nonpos h44 _ _)

/-- C6 witness: cubic run with `c13 = −1` and `c44 = −7`. -/
theorem C6_nonpositive_constants_ignored_witness :
    C66fromSymmetry 200 100 (-1) 0 0 0 0 0 0 0 0 0 0 0 0 (-7) 0 0 0 0 0
      (some "cubic") =
    C66fromSymmetry 200 100 0 0 0 0 0 0 0 0 0 0 0 0 0 (-7) 0 0 0 0 0
      (some "cubic") ∧
    C66fromSymmetry 200 100 (-1) 0 0 0 0 0 0 0 0 0 0 0 0 (-7) 0 0 0 0 0
      (some "cubic") 3 3 = 0.5 * (200 - 100) := by
  obtain ⟨h13, -, -, -, -, -, -, -, -, -, -, -, -, -, -, -, -, -, -, hcubic⟩ :=
    C6_nonpositive_constants_ignored 200 100 (-1) 0 0 0 0 0 0 0 0 0 0 0 0
      (-7) 0 0 0 0 0 (some "cubic")
  exact ⟨h13 (-1) (by norm_num), (hcubic (by norm_num)).1⟩

/-! ## `inverse66`: Voigt-consistent inverse -/

/-- The weight matrix `W`: identity with `W[3,3]=W[4,4]=W[5,5]=0.5`. -/
def W : Mat6 := mset (mset (mset 1 3 3 0.5) 4 4 0.5) 5 5 0.5

/-- `np.linalg.inv` on 6×6 matrices, in exact rational arithmetic:
the adjugate formula `det⁻¹ • adj` (equal to Mathlib's `M⁻¹`). -/
def npLinalgInv (M : Mat6) : Mat6 := (M.det)⁻¹ • M.adjugate

/-- `inverse66`: `einsum('ij,jk,kl', W, inv(M66), W)`. -/
def inverse66 (M66 : Mat6) : Mat6 := W * npLinalgInv M66 * W

theorem npLinalgInv_eq (M : Mat6) : npLinalgInv M = M⁻¹ := by
  rw [npLinalgInv, Matrix.inv_def, Ring.inverse_eq_inv]

/-- Proof-side inverse of `W`: the diagonal `(1,1,1,2,2,2)`. -/
def Wrecip : Mat6 := Matrix.diagonal ![1, 1, 1, 2, 2, 2]

theorem W_eq_diagonal : W = Matrix.diagonal ![1, 1, 1, 0.5, 0.5, 0.5] := by
  ext i j
  fin_cases i <;> fin_cases j <;> rfl

theorem W_mul_Wrecip : W * Wrecip = 1 := by
  rw [W_eq_diagonal, Wrecip, Matrix.diagonal_mul_diagonal]
  have h : (fun i => ![(1 : ℚ), 1, 1, 0.5, 0.5, 0.5] i * ![(1 : ℚ), 1, 1, 2, 2, 2] i) =
      fun _ => (1 : ℚ) := by
    funext i
    fin_cases i <;> norm_num
  rw [h, Matrix.diagonal_one]

theorem Wrecip_mul_W : Wrecip * W = 1 := by
  rw [W_eq_diagonal, Wrecip, Matrix.diagonal_mul_diagonal]
  have h : (fun i => ![(1 : ℚ), 1, 1, 2, 2, 2] i * ![(1 : ℚ), 1, 1, 0.5, 0.5, 0.5] i) =
      fun _ => (1 : ℚ) := by
    funext i
    fin_cases i <;> norm_num
  rw [h, Matrix.diagonal_one]

theorem W_inv_eq : W⁻¹ = Wrecip := Matrix.inv_eq_right_inv W_mul_Wrecip

/-- C3: for every invertible 6×6 matrix, `inverse66` is an involution:
`inverse66 (inverse66 M) = M` in exact arithmetic. -/
theorem C3_inverse66_involutive (M : Mat6) (h : IsUnit M.det) :
    inverse66 (inverse66 M) = M := by
  rw [inverse66, inverse66, npLinalgInv_eq, npLinalgInv_eq,
    Matrix.mul_inv_rev, Matrix.mul_inv_rev,
    Matrix.nonsing_inv_nonsing_inv M h, W_inv_eq]
  rw [← Matrix.mul_assoc W Wrecip, W_mul_Wrecip, Matrix.one_mul,
    Matrix.mul_assoc M Wrecip W, Wrecip_mul_W, Matrix.mul_one]

/-- C3 witness: the identity matrix round-trips. -/
theorem C3_inverse66_involutive_witness :
    IsUnit (1 : Mat6).det ∧ inverse66 (inverse66 1) = 1 :=
  ⟨by simp, C3_inverse66_involutive 1 (by simp)⟩

/-! ## `C66toC3333`: rank-4 expansion -/

/-- Rank-4 3×3×3×3 rational tensors. -/
abbrev Ten3333 := Fin 3 → Fin 3 → Fin 3 → Fin 3 → ℚ

/-- The fixed Voigt index map `index` of `C66toC3333`. -/
def voigtIndex : Fin 6 → Fin 3 × Fin 3 :=
  ![(0, 0), (1, 1), (2, 2), (1, 2), (0, 2), (0, 1)]

/-- One tensor entry assignment `T[i,j,k,l] = x`. -/
def tset (T : Ten3333) (i j k l : Fin 3) (x : ℚ) : Ten3333 :=
  fun p q r s => if p = i ∧ q = j ∧ r = k ∧ s = l then x else T p q r s

/-- `C66toC3333`: expand a 6×6 Voigt matrix to the full fourth-rank tensor,
writing all four minor-symmetric permutations per index pair, in the
source's double loop over `a, b`. -/
def C66toC3333 (stiffness : Mat6) : Ten3333 :=
  (List.finRange 6).foldl (fun T a =>
    (List.finRange 6).foldl (fun T b =>
      let i := (voigtIndex a).1
      let j := (voigtIndex a).2
      let k := (voigtIndex b).1
      let l := (voigtIndex b).2
      tset (tset (tset (tset T j i l k (stiffness a b))
        j i k l (stiffness a b)) i j l k (stiffness a b)) i j k l (stiffness a b))
      T)
    (fun _ _ _ _ => 0)

/-- Inverse Voigt map: the Voigt index of the unordered pair `{i,j}`. -/
def vIdx : Fin 3 → Fin 3 → Fin 6 :=
  ![![0, 5, 4], ![5, 1, 3], ![4, 3, 2]]

set_option maxRecDepth 40000 in
theorem C66toC3333_apply (M : Mat6) (i j k l : Fin 3) :
    C66toC3333 M i j k l = M (vIdx i j) (vIdx k l) := by
  fin_cases i <;> fin_cases j <;> fin_cases k <;> fin_cases l <;> rfl

/-- C4: the expanded tensor satisfies all four minor-symmetry permutations
for every input matrix and every index combination. -/
theorem C4_minor_symmetries (M : Mat6) (i j k l : Fin 3) :
    C66toC3333 M i j k l = C66toC3333 M i j l k ∧
    C66toC3333 M i j k l = C66toC3333 M j i k l ∧
    C66toC3333 M i j k l = C66toC3333 M j i l k := by
  have hsymm : ∀ p q : Fin 3, vIdx p q = vIdx q p := by decide
  refine ⟨?_, ?_, ?_⟩
  · rw [C66toC3333_apply, C66toC3333_apply, hsymm k l]
  · rw [C66toC3333_apply, C66toC3333_apply, hsymm i j]
  · rw [C66toC3333_apply, C66toC3333_apply, hsymm i j, hsymm k l]

/-! ## `E_hkl3333` and isotropy of the directional modulus -/

/-- Directional Young's modulus:
`1 / einsum('...i,...j,...k,...l,ijkl', dir, dir, dir, dir, S3333)`. -/
def E_hkl3333 (S3333 : Ten3333) (dir : Fin 3 → ℚ) : ℚ :=
  1 / (∑ i, ∑ j, ∑ k, ∑ l, dir i * dir j * dir k * dir l * S3333 i j k l)

/-- Right inverse of the isotropic stiffness matrix. -/
theorem isoM_mul_inv (c11 c12 : ℚ) (h1 : c11 - c12 ≠ 0) (h2 : c11 + 2 * c12 ≠ 0) :
    isoM c11 c12 (0.5 * (c11 - c12)) *
      isoM ((c11 + c12) / ((c11 - c12) * (c11 + 2 * c12)))
        (-c12 / ((c11 - c12) * (c11 + 2 * c12)))
        (2 / (c11 - c12)) = 1 := by
  ext i j
  rw [Matrix.mul_apply, Fin.sum_univ_six]
  fin_cases i <;> fin_cases j <;>
    · simp [isoM, Matrix.one_apply]
      try field_simp
      try ring

set_option maxHeartbeats 2000000 in
/-- Conjugating an isotropic-shaped matrix by `W` scales the shear diagonal
by 1/4. -/
theorem W_conj_isoM (p q s : ℚ) :
    W * isoM p q s * W = isoM p q (0.25 * s) := by
  ext i j
  rw [Matrix.mul_apply, Fin.sum_univ_six]
  simp only [Matrix.mul_apply, Fin.sum_univ_six]
  fin_cases i <;> fin_cases j <;>
    · simp [W, mset, isoM, Matrix.one_apply]
      try ring

theorem inverse66_isoM (c11 c12 : ℚ) (h1 : c11 - c12 ≠ 0)
    (h2 : c11 + 2 * c12 ≠ 0) :
    inverse66 (isoM c11 c12 (0.5 * (c11 - c12))) =
    isoM ((c11 + c12) / ((c11 - c12) * (c11 + 2 * c12)))
      (-c12 / ((c11 - c12) * (c11 + 2 * c12)))
      (0.25 * (2 / (c11 - c12))) := by
  rw [inverse66, npLinalgInv_eq,
    Matrix.inv_eq_right_inv (isoM_mul_inv c11 c12 h1 h2), W_conj_isoM]

set_option maxHeartbeats 4000000 in
/-- The rank-4 contraction of an isotropic-shaped compliance with four copies
of a direction depends only on the squared norm when `p − q = 2r`. -/
theorem quad_isoM (p q r : ℚ) (hpq : p - q = 2 * r) (d : Fin 3 → ℚ) :
    (∑ i, ∑ j, ∑ k, ∑ l, d i * d j * d k * d l * (C66toC3333 (isoM p q r)) i j k l) =
    p * (∑ i, d i * d i) ^ 2 := by
  obtain rfl : r = (p - q) / 2 := by linarith
  simp only [C66toC3333_apply, Fin.sum_univ_three]
  simp +decide [vIdx, isoM]
  ring

/-- C2: on the compliance pipeline built from the isotropic stiffness
(c11, c12), with the stiffness invertible (equivalently `c11 ≠ c12` and
`c11 + 2c12 ≠ 0`), the directional modulus is the same for all unit
directions. -/
theorem C2_isotropic_modulus_constant (c11 c12 : ℚ)
    (h1 : c11 - c12 ≠ 0) (h2 : c11 + 2 * c12 ≠ 0)
    (d1 d2 : Fin 3 → ℚ)
    (hd1 : (∑ i, d1 i * d1 i) = 1) (hd2 : (∑ i, d2 i * d2 i) = 1) :
    E_hkl3333 (C66toC3333 (inverse66 (C66fromSymmetry c11 c12 0 0 0 0 0 0 0 0 0
      0 0 0 0 0 0 0 0 0 0 (some "isotropic")))) d1 =
    E_hkl3333 (C66toC3333 (inverse66 (C66fromSymmetry c11 c12 0 0 0 0 0 0 0 0 0
      0 0 0 0 0 0 0 0 0 0 (some "isotropic")))) d2 := by
  have hab : (c11 + c12) / ((c11 - c12) * (c11 + 2 * c12)) -
      -c12 / ((c11 - c12) * (c11 + 2 * c12)) =
      2 * (0.25 * (2 / (c11 - c12))) := by
    field_simp
    ring
  rw [C66fromSymmetry_isotropic, inverse66_isoM c11 c12 h1 h2,
    E_hkl3333, E_hkl3333, quad_isoM _ _ _ hab d1, quad_isoM _ _ _ hab d2,
    hd1, hd2]

/-- C2 witness: `c11 = 200, c12 = 100`, directions `[1,0,0]` and
`[3/5,4/5,0]`. -/
theorem C2_isotropic_modulus_constant_witness :
    E_hkl3333 (C66toC3333 (inverse66 (C66fromSymmetry 200 100 0 0 0 0 0 0 0 0 0
      0 0 0 0 0 0 0 0 0 0 (some "isotropic")))) ![1, 0, 0] =
    E_hkl3333 (C66toC3333 (inverse66 (C66fromSymmetry 200 100 0 0 0 0 0 0 0 0 0
      0 0 0 0 0 0 0 0 0 0 (some "isotropic")))) ![3 / 5, 4 / 5, 0] :=
  C2_isotropic_modulus_constant 200 100 (by norm_num) (by norm_num)
    ![1, 0, 0] ![3 / 5, 4 / 5, 0]
    (by norm_num [Fin.sum_univ_three]) (by norm_num [Fin.sum_univ_three])

end ElasticModulus
